import Mathlib

/-!
Shallow embedding of the `FinancialAudit` Solidity contract
(source: `src/test/FinancialAudit.test.ts`, contract section).

Modelling conventions:
* `Addr` (addresses) are natural numbers; `0` is the zero address.
* `Bytes` (calldata byte strings) are lists of naturals.
* `keccak256` outputs (`bytes32`) are modelled by the inductive type `H`,
  whose constructors record the shape of the hashed input.  Distinct
  constructors / arguments give distinct hashes: this is the ideal
  collision-resistance assumption for `keccak256`.  `H.zero` is the
  all-zero `bytes32` of uninitialised storage.
* The `uint256` audit id `keccak256(abi.encodePacked(timestamp, prevrandao,
  accountId, sender))` is modelled by `auditIdOf`, an injective pairing of
  the four packed inputs (again ideal collision resistance); note that, as
  in the contract, equal input tuples give equal ids.
* Solidity mappings (zero-initialised total maps) are association lists
  with an explicit default (`getD` / `setD`).
* Each external function becomes a Lean function
  `State → Env → args → Except (Error × State) result`
  written statement-for-statement in the source order, modifiers first
  (in their declaration order).  A `require` failure yields
  `.error (e, s)` where `s` is the storage state at the moment of the
  revert, before any rollback: this lets us *prove*, rather than build in,
  that errors are detected before any mutation.
* `Env` carries `msg.sender`, `block.timestamp` and `block.prevrandao`.
* Emitted events are appended to the `events` list of the state.
-/

abbrev Addr : Type := Nat

abbrev Bytes : Type := List Nat

/-- Values of type `bytes32` produced by `keccak256` (plus the zero word
of uninitialised storage).  Constructors mirror the argument shapes used
in the contract: raw calldata bytes, a packed string, a packed `uint256`,
and a packed `(bytes32, uint256)` chain step. -/
inductive H : Type where
  | zero : H
  | ofBytes (b : Bytes) : H
  | ofString (s : String) : H
  | ofNat (n : Nat) : H
  | chain (h : H) (n : Nat) : H
  deriving DecidableEq, Repr

/-- The `uint256` audit id derived by
`keccak256(abi.encodePacked(block.timestamp, block.prevrandao, accountId,
msg.sender))`, modelled as an injective pairing of the packed inputs
(ideal collision resistance of `keccak256`). -/
def auditIdOf (timestamp prevrandao accountId : Nat) (caller : Addr) : Nat :=
  Nat.pair timestamp (Nat.pair prevrandao (Nat.pair accountId caller))

/-- Association-list lookup with default, modelling a Solidity mapping
read (`m[k]`, zero-initialised). -/
def getD {α : Type} (m : List (Nat × α)) (k : Nat) (d : α) : α :=
  match m with
  | [] => d
  | (k', v) :: t => if k = k' then v else getD t k d

/-- Association-list update, modelling a Solidity mapping write
(`m[k] = v`). -/
def setD {α : Type} (m : List (Nat × α)) (k : Nat) (v : α) : List (Nat × α) :=
  match m with
  | [] => [(k, v)]
  | (k', v') :: t => if k = k' then (k, v) :: t else (k', v') :: setD t k v

/-- Solidity `struct PrivateAccount`. -/
structure PrivateAccount where
  encryptedBalance : H
  encryptedTransactions : H
  isActive : Bool
  lastUpdated : Nat
  accountOwner : Addr
  accountType : H
  deriving DecidableEq, Repr

/-- The zero-initialised `PrivateAccount` of an untouched mapping slot. -/
def emptyAccount : PrivateAccount :=
  { encryptedBalance := H.zero
    encryptedTransactions := H.zero
    isActive := false
    lastUpdated := 0
    accountOwner := 0
    accountType := H.zero }

/-- Solidity `struct AuditRecord`. -/
structure AuditRecord where
  accountId : Nat
  auditedBalance : H
  discrepancyFlag : H
  auditTimestamp : Nat
  isCompleted : Bool
  auditType : H
  deriving DecidableEq, Repr

/-- The zero-initialised `AuditRecord` of an untouched mapping slot;
its `accountId = 0` is the contract's "no such audit" sentinel. -/
def emptyAudit : AuditRecord :=
  { accountId := 0
    auditedBalance := H.zero
    discrepancyFlag := H.zero
    auditTimestamp := 0
    isCompleted := false
    auditType := H.zero }

/-- The five events declared by the contract. -/
inductive Event : Type where
  | AccountCreated (accountId : Nat) (owner : Addr) (accountType : H)
  | BalanceUpdated (accountId : Nat) (timestamp : Nat) (updateType : H)
  | AuditInitiated (accountId : Nat) (auditId : Nat) (auditType : H)
  | AuditCompleted (accountId : Nat) (auditId : Nat)
  | AuditorTransferred (previousAuditor newAuditor : Addr)
  deriving DecidableEq, Repr

/-- The contract's storage: `auditor`, `totalAccounts`, the four mappings,
plus the (append-only) log of emitted events. -/
structure State where
  auditor : Addr
  totalAccounts : Nat
  accounts : List (Nat × PrivateAccount)
  auditRecords : List (Nat × AuditRecord)
  userAccounts : List (Addr × List Nat)
  accountAudits : List (Nat × List Nat)
  events : List Event
  deriving DecidableEq, Repr

/-- Per-call environment: `msg.sender`, `block.timestamp`,
`block.prevrandao`. -/
structure Env where
  caller : Addr
  timestamp : Nat
  prevrandao : Nat
  deriving DecidableEq, Repr

/-- The error taxonomy of the spec, mapped from the contract's `require`
messages: `Unauthorized` for the role/ownership messages, the others
one-to-one. -/
inductive Error : Type where
  | Unauthorized
  | InvalidAccount
  | InactiveAccount
  | AuditNotFound
  | AuditAlreadyCompleted
  | InvalidAuditor
  deriving DecidableEq, Repr

/-- Solidity `constructor()`: deployer becomes the auditor, `totalAccounts = 0`,
all storage zero-initialised. -/
def deploy (deployer : Addr) : State :=
  { auditor := deployer
    totalAccounts := 0
    accounts := []
    auditRecords := []
    userAccounts := []
    accountAudits := []
    events := [] }

/-- Solidity `createAccount(bytes encryptedBalance, string accountType)`. -/
def createAccount (s : State) (e : Env) (encryptedBalance : Bytes)
    (accountType : String) : Except (Error × State) (State × Nat) :=
  let balanceHash := H.ofBytes encryptedBalance
  let accountTypeHash := H.ofString accountType
  let totalAccounts' := s.totalAccounts + 1
  let accountId := totalAccounts'
  let acct : PrivateAccount :=
    { encryptedBalance := balanceHash
      encryptedTransactions := H.ofNat 0
      isActive := true
      lastUpdated := e.timestamp
      accountOwner := e.caller
      accountType := accountTypeHash }
  .ok
    ({ s with
        totalAccounts := totalAccounts'
        accounts := setD s.accounts accountId acct
        userAccounts :=
          setD s.userAccounts e.caller
            (getD s.userAccounts e.caller [] ++ [accountId])
        events :=
          s.events ++ [Event.AccountCreated accountId e.caller accountTypeHash] },
      accountId)

/-- Solidity `updateBalance(uint256 accountId, bytes encryptedNewBalance, string
updateType)`, modifiers `validAccount`, `onlyAccountOwner`,
`activeAccount` in that order. -/
def updateBalance (s : State) (e : Env) (accountId : Nat)
    (encryptedNewBalance : Bytes) (updateType : String) :
    Except (Error × State) State :=
  if ¬(0 < accountId ∧ accountId ≤ s.totalAccounts) then
    .error (Error.InvalidAccount, s)
  else if (getD s.accounts accountId emptyAccount).accountOwner ≠ e.caller then
    .error (Error.Unauthorized, s)
  else if ¬(getD s.accounts accountId emptyAccount).isActive then
    .error (Error.InactiveAccount, s)
  else
    let acct := getD s.accounts accountId emptyAccount
    let newBalanceHash := H.ofBytes encryptedNewBalance
    let updateTypeHash := H.ofString updateType
    let acct' :=
      { acct with
          encryptedBalance := newBalanceHash
          lastUpdated := e.timestamp
          encryptedTransactions := H.chain acct.encryptedTransactions 1 }
    .ok
      { s with
          accounts := setD s.accounts accountId acct'
          events :=
            s.events ++ [Event.BalanceUpdated accountId e.timestamp updateTypeHash] }

/-- Solidity `initiateAudit(uint256 accountId, string auditType)`, modifiers
`onlyAuditor`, `validAccount`, `activeAccount` in that order. -/
def initiateAudit (s : State) (e : Env) (accountId : Nat)
    (auditType : String) : Except (Error × State) (State × Nat) :=
  if e.caller ≠ s.auditor then
    .error (Error.Unauthorized, s)
  else if ¬(0 < accountId ∧ accountId ≤ s.totalAccounts) then
    .error (Error.InvalidAccount, s)
  else if ¬(getD s.accounts accountId emptyAccount).isActive then
    .error (Error.InactiveAccount, s)
  else
    let auditId := auditIdOf e.timestamp e.prevrandao accountId e.caller
    let auditTypeHash := H.ofString auditType
    let auditBalance := (getD s.accounts accountId emptyAccount).encryptedBalance
    let defaultFlag := H.ofNat 0
    let record : AuditRecord :=
      { accountId := accountId
        auditedBalance := auditBalance
        discrepancyFlag := defaultFlag
        auditTimestamp := e.timestamp
        isCompleted := false
        auditType := auditTypeHash }
    .ok
      ({ s with
          auditRecords := setD s.auditRecords auditId record
          accountAudits :=
            setD s.accountAudits accountId
              (getD s.accountAudits accountId [] ++ [auditId])
          events :=
            s.events ++ [Event.AuditInitiated accountId auditId auditTypeHash] },
        auditId)

/-- Solidity `completeAudit(uint256 auditId, bytes encryptedFlag)`, modifier
`onlyAuditor`, then the two `require`s of the body. -/
def completeAudit (s : State) (e : Env) (auditId : Nat)
    (encryptedFlag : Bytes) : Except (Error × State) State :=
  if e.caller ≠ s.auditor then
    .error (Error.Unauthorized, s)
  else if (getD s.auditRecords auditId emptyAudit).accountId = 0 then
    .error (Error.AuditNotFound, s)
  else if (getD s.auditRecords auditId emptyAudit).isCompleted then
    .error (Error.AuditAlreadyCompleted, s)
  else
    let record := getD s.auditRecords auditId emptyAudit
    let flagHash := H.ofBytes encryptedFlag
    let record' := { record with discrepancyFlag := flagHash, isCompleted := true }
    .ok
      { s with
          auditRecords := setD s.auditRecords auditId record'
          events := s.events ++ [Event.AuditCompleted record.accountId auditId] }

/-- Solidity `deactivateAccount(uint256 accountId)`, modifiers `validAccount`,
`onlyAccountOwner`.  Note: no event is emitted. -/
def deactivateAccount (s : State) (e : Env) (accountId : Nat) :
    Except (Error × State) State :=
  if ¬(0 < accountId ∧ accountId ≤ s.totalAccounts) then
    .error (Error.InvalidAccount, s)
  else if (getD s.accounts accountId emptyAccount).accountOwner ≠ e.caller then
    .error (Error.Unauthorized, s)
  else
    let acct := getD s.accounts accountId emptyAccount
    .ok { s with accounts := setD s.accounts accountId { acct with isActive := false } }

/-- Solidity `reactivateAccount(uint256 accountId)`, modifiers `validAccount`,
`onlyAccountOwner`.  Note: no event is emitted. -/
def reactivateAccount (s : State) (e : Env) (accountId : Nat) :
    Except (Error × State) State :=
  if ¬(0 < accountId ∧ accountId ≤ s.totalAccounts) then
    .error (Error.InvalidAccount, s)
  else if (getD s.accounts accountId emptyAccount).accountOwner ≠ e.caller then
    .error (Error.Unauthorized, s)
  else
    let acct := getD s.accounts accountId emptyAccount
    .ok { s with accounts := setD s.accounts accountId { acct with isActive := true } }

/-- Solidity `transferAuditor(address newAuditor)`, modifier `onlyAuditor`, then the
two `require`s of the body. -/
def transferAuditor (s : State) (e : Env) (newAuditor : Addr) :
    Except (Error × State) State :=
  if e.caller ≠ s.auditor then
    .error (Error.Unauthorized, s)
  else if newAuditor = 0 then
    .error (Error.InvalidAuditor, s)
  else if newAuditor = s.auditor then
    .error (Error.InvalidAuditor, s)
  else
    .ok
      { s with
          auditor := newAuditor
          events := s.events ++ [Event.AuditorTransferred s.auditor newAuditor] }

/-- Solidity `getTotalAccounts()`. -/
def getTotalAccounts (s : State) : Nat :=
  s.totalAccounts

/-- Solidity `getAccountInfo(uint256 accountId)` (view, modifier `validAccount`). -/
def getAccountInfo (s : State) (accountId : Nat) :
    Except Error (Bool × Nat × Addr × H) :=
  if ¬(0 < accountId ∧ accountId ≤ s.totalAccounts) then
    .error Error.InvalidAccount
  else
    let account := getD s.accounts accountId emptyAccount
    .ok (account.isActive, account.lastUpdated, account.accountOwner,
      account.accountType)

/-- Solidity `getAuditRecord(uint256 auditId)` (view, modifier `onlyAuditor`, then
the existence `require`). -/
def getAuditRecord (s : State) (e : Env) (auditId : Nat) :
    Except Error (Nat × Nat × Bool × H) :=
  if e.caller ≠ s.auditor then
    .error Error.Unauthorized
  else if (getD s.auditRecords auditId emptyAudit).accountId = 0 then
    .error Error.AuditNotFound
  else
    let record := getD s.auditRecords auditId emptyAudit
    .ok (record.accountId, record.auditTimestamp, record.isCompleted,
      record.auditType)

/-- Solidity `getAuditFlag(uint256 auditId)` (view, modifier `onlyAuditor`, then
the existence `require`). -/
def getAuditFlag (s : State) (e : Env) (auditId : Nat) : Except Error H :=
  if e.caller ≠ s.auditor then
    .error Error.Unauthorized
  else if (getD s.auditRecords auditId emptyAudit).accountId = 0 then
    .error Error.AuditNotFound
  else
    .ok (getD s.auditRecords auditId emptyAudit).discrepancyFlag

/-- One external mutating call, bundling the function selector, its
arguments and the call environment. -/
inductive Op : Type where
  | createAccount (e : Env) (encryptedBalance : Bytes) (accountType : String)
  | updateBalance (e : Env) (accountId : Nat) (encryptedNewBalance : Bytes)
      (updateType : String)
  | initiateAudit (e : Env) (accountId : Nat) (auditType : String)
  | completeAudit (e : Env) (auditId : Nat) (encryptedFlag : Bytes)
  | deactivateAccount (e : Env) (accountId : Nat)
  | reactivateAccount (e : Env) (accountId : Nat)
  | transferAuditor (e : Env) (newAuditor : Addr)
  deriving DecidableEq, Repr

/-- Dispatch one call; the `Option Nat` is the returned id
(for `createAccount` and `initiateAudit`). -/
def step (s : State) : Op → Except (Error × State) (State × Option Nat)
  | Op.createAccount e b t =>
    (createAccount s e b t).map fun (s', i) => (s', some i)
  | Op.updateBalance e a b t =>
    (updateBalance s e a b t).map fun s' => (s', none)
  | Op.initiateAudit e a t =>
    (initiateAudit s e a t).map fun (s', i) => (s', some i)
  | Op.completeAudit e a f =>
    (completeAudit s e a f).map fun s' => (s', none)
  | Op.deactivateAccount e a =>
    (deactivateAccount s e a).map fun s' => (s', none)
  | Op.reactivateAccount e a =>
    (reactivateAccount s e a).map fun s' => (s', none)
  | Op.transferAuditor e a =>
    (transferAuditor s e a).map fun s' => (s', none)

/-- Transaction semantics of a call sequence: a reverted call leaves the
state as it was. -/
def run (s : State) : List Op → State
  | [] => s
  | op :: t =>
    match step s op with
    | .ok (s', _) => run s' t
    | .error _ => run s t

/-- The audit id a successful call contributes to the assigned-ids list:
the returned id when the call was an `initiateAudit`, nothing
otherwise. -/
def initiatePrefix (op : Op) (r : Option Nat) : List Nat :=
  match op, r with
  | Op.initiateAudit _ _ _, some i => [i]
  | _, _ => []

/-- The audit ids assigned by the successful `initiateAudit` calls of a
sequence, in call order. -/
def auditIdsAssigned (s : State) : List Op → List Nat
  | [] => []
  | op :: t =>
    match step s op with
    | .ok (s', r) => initiatePrefix op r ++ auditIdsAssigned s' t
    | .error _ => auditIdsAssigned s t

/-- A sequence of `createAccount` calls (each given its environment,
initial encrypted balance and account-type label): final state plus the
returned account ids in call order. -/
def runCreates : State → List (Env × Bytes × String) → State × List Nat
  | s, [] => (s, [])
  | s, (e, b, t) :: rest =>
    match createAccount s e b t with
    | .ok (s', i) => ((runCreates s' rest).1, i :: (runCreates s' rest).2)
    | .error _ => runCreates s rest

/-- The bound/existence invariant on stored audit records: a stored
record (non-zero `accountId`) always points into `[1, totalAccounts]`. -/
def AuditInv (s : State) : Prop :=
  ∀ a : Nat, (getD s.auditRecords a emptyAudit).accountId ≠ 0 →
    1 ≤ (getD s.auditRecords a emptyAudit).accountId ∧
    (getD s.auditRecords a emptyAudit).accountId ≤ s.totalAccounts

/-! Concrete example data used by the witness and counterexample
theorems below.  The deployer (address 1) is the auditor; address 2 owns
account 1. -/

def exDeployer : Addr := 1

def exOwner : Addr := 2

def exS1 : State :=
  run (deploy exDeployer) [Op.createAccount ⟨exOwner, 10, 5⟩ [1] "company"]

def exAuditId : Nat := auditIdOf 11 5 1 exDeployer

def exS2 : State := run exS1 [Op.initiateAudit ⟨exDeployer, 11, 5⟩ 1 "compliance"]

def exS3 : State := run exS2 [Op.completeAudit ⟨exDeployer, 11, 5⟩ exAuditId [7]]

def exS4 : State := run exS3 [Op.initiateAudit ⟨exDeployer, 11, 5⟩ 1 "financial"]

def exS2u : State := run exS2 [Op.updateBalance ⟨exOwner, 11, 5⟩ 1 [2] "deposit"]

def exS2ui : State := run exS2u [Op.initiateAudit ⟨exDeployer, 11, 5⟩ 1 "financial"]

def exS2d : State := run exS2 [Op.deactivateAccount ⟨exOwner, 12, 6⟩ 1]

def exS1d : State := run exS1 [Op.deactivateAccount ⟨exOwner, 11, 5⟩ 1]

def exS2b : State := run exS1 [Op.initiateAudit ⟨exDeployer, 12, 5⟩ 1 "compliance"]

/-! ## Lemmas about the association-list maps -/

theorem getD_setD_self {α : Type} (m : List (Nat × α)) (k : Nat) (v d : α) :
    getD (setD m k v) k d = v := by
  induction m with
  | nil => simp [setD, getD]
  | cons hd t ih =>
    obtain ⟨k', v'⟩ := hd
    by_cases hk : k = k'
    · simp [setD, getD, hk]
    · simp [setD, getD, hk, ih]

theorem getD_setD_ne {α : Type} (m : List (Nat × α)) (k j : Nat) (v d : α)
    (h : j ≠ k) : getD (setD m k v) j d = getD m j d := by
  induction m with
  | nil => simp [setD, getD, h]
  | cons hd t ih =>
    obtain ⟨k', v'⟩ := hd
    by_cases hk : k = k'
    · subst hk
      simp [setD, getD, h]
    · by_cases hj : j = k'
      · simp [setD, getD, hk, hj]
      · simp [setD, getD, hk, hj, ih]

theorem setD_setD {α : Type} (m : List (Nat × α)) (k : Nat) (v w : α) :
    setD (setD m k v) k w = setD m k w := by
  induction m with
  | nil => simp [setD]
  | cons hd t ih =>
    obtain ⟨k', v'⟩ := hd
    by_cases hk : k = k'
    · simp [setD, hk]
    · simp [setD, hk, ih]

/-! ## Errors carry the unchanged pre-state -/

theorem updateBalance_error_eq (s : State) (e : Env) (a : Nat) (b : Bytes)
    (t : String) (err : Error) (s' : State)
    (h : updateBalance s e a b t = .error (err, s')) : s' = s := by
  unfold updateBalance at h
  split_ifs at h <;> simp_all

theorem initiateAudit_error_eq (s : State) (e : Env) (a : Nat) (t : String)
    (err : Error) (s' : State)
    (h : initiateAudit s e a t = .error (err, s')) : s' = s := by
  unfold initiateAudit at h
  split_ifs at h <;> simp_all

theorem completeAudit_error_eq (s : State) (e : Env) (a : Nat) (f : Bytes)
    (err : Error) (s' : State)
    (h : completeAudit s e a f = .error (err, s')) : s' = s := by
  unfold completeAudit at h
  split_ifs at h <;> simp_all

theorem deactivateAccount_error_eq (s : State) (e : Env) (a : Nat)
    (err : Error) (s' : State)
    (h : deactivateAccount s e a = .error (err, s')) : s' = s := by
  unfold deactivateAccount at h
  split_ifs at h <;> simp_all

theorem reactivateAccount_error_eq (s : State) (e : Env) (a : Nat)
    (err : Error) (s' : State)
    (h : reactivateAccount s e a = .error (err, s')) : s' = s := by
  unfold reactivateAccount at h
  split_ifs at h <;> simp_all

theorem transferAuditor_error_eq (s : State) (e : Env) (a : Addr)
    (err : Error) (s' : State)
    (h : transferAuditor s e a = .error (err, s')) : s' = s := by
  unfold transferAuditor at h
  split_ifs at h <;> simp_all

theorem step_error_eq (s : State) (op : Op) (err : Error) (s' : State)
    (h : step s op = .error (err, s')) : s' = s := by
  cases op with
  | createAccount e b t => simp [step, createAccount, Except.map] at h
  | updateBalance e a b t =>
    refine updateBalance_error_eq s e a b t err s' ?_
    cases hu : updateBalance s e a b t with
    | ok v => simp [step, hu, Except.map] at h
    | error v =>
      obtain ⟨e0, s0⟩ := v
      simp only [step, hu, Except.map] at h
      cases h
      rfl
  | initiateAudit e a t =>
    refine initiateAudit_error_eq s e a t err s' ?_
    cases hu : initiateAudit s e a t with
    | ok v => simp [step, hu, Except.map] at h
    | error v =>
      obtain ⟨e0, s0⟩ := v
      simp only [step, hu, Except.map] at h
      cases h
      rfl
  | completeAudit e a f =>
    refine completeAudit_error_eq s e a f err s' ?_
    cases hu : completeAudit s e a f with
    | ok v => simp [step, hu, Except.map] at h
    | error v =>
      obtain ⟨e0, s0⟩ := v
      simp only [step, hu, Except.map] at h
      cases h
      rfl
  | deactivateAccount e a =>
    refine deactivateAccount_error_eq s e a err s' ?_
    cases hu : deactivateAccount s e a with
    | ok v => simp [step, hu, Except.map] at h
    | error v =>
      obtain ⟨e0, s0⟩ := v
      simp only [step, hu, Except.map] at h
      cases h
      rfl
  | reactivateAccount e a =>
    refine reactivateAccount_error_eq s e a err s' ?_
    cases hu : reactivateAccount s e a with
    | ok v => simp [step, hu, Except.map] at h
    | error v =>
      obtain ⟨e0, s0⟩ := v
      simp only [step, hu, Except.map] at h
      cases h
      rfl
  | transferAuditor e a =>
    refine transferAuditor_error_eq s e a err s' ?_
    cases hu : transferAuditor s e a with
    | ok v => simp [step, hu, Except.map] at h
    | error v =>
      obtain ⟨e0, s0⟩ := v
      simp only [step, hu, Except.map] at h
      cases h
      rfl

/-- C3: whenever any mutating operation reports an error, the state
carried out of the aborted execution is the pre-call state itself (the
error was detected before any storage write or event emission), and under
transaction semantics the ledger after the call equals the ledger before
it. -/
theorem C3_error_leaves_state_unchanged (s : State) (op : Op) (err : Error)
    (s' : State) (h : step s op = .error (err, s')) :
    s' = s ∧ run s [op] = s := by
  refine ⟨step_error_eq s op err s' h, ?_⟩
  simp [run, h]

/-- Witness for C3: the auditor (not the owner) attempting `updateBalance`
on account 1 is rejected with `Unauthorized` and the state is unchanged. -/
theorem C3_witness :
    step exS1 (Op.updateBalance ⟨exDeployer, 20, 5⟩ 1 [9] "deposit") =
      Except.error (Error.Unauthorized, exS1) ∧
    exS1 = exS1 ∧
    run exS1 [Op.updateBalance ⟨exDeployer, 20, 5⟩ 1 [9] "deposit"] = exS1 := by
  refine ⟨rfl, ?_, ?_⟩
  · exact (C3_error_leaves_state_unchanged exS1
      (Op.updateBalance ⟨exDeployer, 20, 5⟩ 1 [9] "deposit")
      Error.Unauthorized exS1 rfl).1
  · exact (C3_error_leaves_state_unchanged exS1
      (Op.updateBalance ⟨exDeployer, 20, 5⟩ 1 [9] "deposit")
      Error.Unauthorized exS1 rfl).2

/-- C7: for a valid account, `updateBalance` invoked by any caller other
than the account owner fails `Unauthorized` with the state unchanged —
there is no auditor exception, since the only role check performed is
`onlyAccountOwner`. -/
theorem C7_nonowner_update_unauthorized (s : State) (e : Env)
    (accountId : Nat) (b : Bytes) (t : String)
    (hpos : 0 < accountId) (hle : accountId ≤ s.totalAccounts)
    (howner : (getD s.accounts accountId emptyAccount).accountOwner ≠ e.caller) :
    updateBalance s e accountId b t = .error (Error.Unauthorized, s) := by
  have h1 : ¬¬(0 < accountId ∧ accountId ≤ s.totalAccounts) :=
    not_not_intro ⟨hpos, hle⟩
  unfold updateBalance
  rw [if_neg h1, if_pos howner]

/-- Witness for C7: the current auditor (address 1), who does not own
account 1 (owned by address 2), is rejected with `Unauthorized`. -/
theorem C7_witness :
    updateBalance exS1 ⟨exDeployer, 20, 5⟩ 1 [9] "deposit" =
      Except.error (Error.Unauthorized, exS1) :=
  C7_nonowner_update_unauthorized exS1 ⟨exDeployer, 20, 5⟩ 1 [9] "deposit"
    (by decide) (by decide) (by decide)

/-! ## C1: audit-id uniqueness -/

/-- Counterexample to C1: two distinct successful `initiateAudit` calls on
account 1 (one before and one after balance/audit activity), both in the
same block (`timestamp = 11`, `prevrandao = 5`) by the same auditor,
derive the *same* audit id, and the second call overwrites the stored
record: the audit that had `isCompleted = true` is replaced by a fresh
record with `isCompleted = false` — a stored audit record *is* replaced
(even re-opened) by a later initiation. -/
theorem C1_counterexample :
    initiateAudit exS1 ⟨exDeployer, 11, 5⟩ 1 "compliance" =
      Except.ok (exS2, exAuditId) ∧
    initiateAudit exS3 ⟨exDeployer, 11, 5⟩ 1 "financial" =
      Except.ok (exS4, exAuditId) ∧
    (getD exS3.auditRecords exAuditId emptyAudit).isCompleted = true ∧
    (getD exS4.auditRecords exAuditId emptyAudit).isCompleted = false ∧
    getD exS4.auditRecords exAuditId emptyAudit ≠
      getD exS3.auditRecords exAuditId emptyAudit :=
  ⟨rfl, rfl, rfl, rfl, by decide⟩

theorem initiateAudit_ok_id (s : State) (e : Env) (a : Nat) (t : String)
    (s' : State) (i : Nat) (h : initiateAudit s e a t = .ok (s', i)) :
    i = auditIdOf e.timestamp e.prevrandao a e.caller := by
  unfold initiateAudit at h
  split_ifs at h <;> simp_all

/-- C1 amended: the derived audit ids of two successful `initiateAudit`
calls are distinct *provided* the derivation inputs
`(block.timestamp, block.prevrandao, accountId, msg.sender)` of the two
calls differ (under the ideal collision-resistance model of `keccak256`);
when all four inputs coincide the ids coincide and the stored record is
overwritten, as `C1_counterexample` shows. -/
theorem C1_amended_distinct_inputs_distinct_ids
    (s1 s2 : State) (e1 e2 : Env) (a1 a2 : Nat) (t1 t2 : String)
    (s1' s2' : State) (i1 i2 : Nat)
    (h1 : initiateAudit s1 e1 a1 t1 = .ok (s1', i1))
    (h2 : initiateAudit s2 e2 a2 t2 = .ok (s2', i2))
    (hne : (e1.timestamp, e1.prevrandao, a1, e1.caller) ≠
      (e2.timestamp, e2.prevrandao, a2, e2.caller)) :
    i1 ≠ i2 := by
  have g1 := initiateAudit_ok_id s1 e1 a1 t1 s1' i1 h1
  have g2 := initiateAudit_ok_id s2 e2 a2 t2 s2' i2 h2
  intro hcontra
  apply hne
  rw [g1, g2] at hcontra
  unfold auditIdOf at hcontra
  obtain ⟨ht, hrest⟩ := Nat.pair_eq_pair.mp hcontra
  obtain ⟨hp, hrest2⟩ := Nat.pair_eq_pair.mp hrest
  obtain ⟨ha, hc⟩ := Nat.pair_eq_pair.mp hrest2
  simp [ht, hp, ha, hc]

/-- Witness for the amended C1: two successful initiations in different
blocks (timestamps 11 and 12) yield different audit ids. -/
theorem C1_amended_witness : exAuditId ≠ auditIdOf 12 5 1 exDeployer :=
  C1_amended_distinct_inputs_distinct_ids exS1 exS1
    ⟨exDeployer, 11, 5⟩ ⟨exDeployer, 12, 5⟩ 1 1 "compliance" "compliance"
    exS2 exS2b exAuditId (auditIdOf 12 5 1 exDeployer) rfl rfl (by decide)

/-! ## C2: every mutation emits an event -/

/-- Counterexample to C2: a successful `deactivateAccount` call mutates
state (account 1 flips from active to inactive) yet the event log is
unchanged — `deactivateAccount` (and likewise `reactivateAccount`) emits
no event. -/
theorem C2_counterexample :
    deactivateAccount exS1 ⟨exOwner, 11, 5⟩ 1 = Except.ok exS1d ∧
    (getD exS1.accounts 1 emptyAccount).isActive = true ∧
    (getD exS1d.accounts 1 emptyAccount).isActive = false ∧
    exS1d.events = exS1.events :=
  ⟨rfl, rfl, rfl, rfl⟩

/-- C2 amended: every successful `createAccount`, `updateBalance`,
`initiateAudit`, `completeAudit` and `transferAuditor` appends exactly
one event of the corresponding kind (with the §6 payloads) to the log,
while `deactivateAccount` and `reactivateAccount` mutate the account's
active flag without emitting any event. -/
theorem C2_amended_events :
    (∀ s e b t s' i, createAccount s e b t = .ok (s', i) →
      s'.events = s.events ++ [Event.AccountCreated i e.caller (H.ofString t)]) ∧
    (∀ s e a b t s', updateBalance s e a b t = .ok s' →
      s'.events = s.events ++ [Event.BalanceUpdated a e.timestamp (H.ofString t)]) ∧
    (∀ s e a t s' i, initiateAudit s e a t = .ok (s', i) →
      s'.events = s.events ++ [Event.AuditInitiated a i (H.ofString t)]) ∧
    (∀ s e a f s', completeAudit s e a f = .ok s' →
      s'.events = s.events ++
        [Event.AuditCompleted (getD s.auditRecords a emptyAudit).accountId a]) ∧
    (∀ s e a s', transferAuditor s e a = .ok s' →
      s'.events = s.events ++ [Event.AuditorTransferred s.auditor a]) ∧
    (∀ s e a s', deactivateAccount s e a = .ok s' → s'.events = s.events) ∧
    (∀ s e a s', reactivateAccount s e a = .ok s' → s'.events = s.events) := by
  refine ⟨?_, ?_, ?_, ?_, ?_, ?_, ?_⟩
  · intro s e b t s' i h
    unfold createAccount at h
    simp only [Except.ok.injEq, Prod.mk.injEq] at h
    obtain ⟨hs, hi⟩ := h
    subst hs
    subst hi
    rfl
  · intro s e a b t s' h
    unfold updateBalance at h
    split_ifs at h <;>
      first
        | exact Except.noConfusion h
        | (injection h with h; subst h; rfl)
  · intro s e a t s' i h
    unfold initiateAudit at h
    split_ifs at h <;>
      first
        | exact Except.noConfusion h
        | (injection h with h; injection h with h1 h2; subst h1; subst h2; rfl)
  · intro s e a f s' h
    unfold completeAudit at h
    split_ifs at h <;>
      first
        | exact Except.noConfusion h
        | (injection h with h; subst h; rfl)
  · intro s e a s' h
    unfold transferAuditor at h
    split_ifs at h <;>
      first
        | exact Except.noConfusion h
        | (injection h with h; subst h; rfl)
  · intro s e a s' h
    unfold deactivateAccount at h
    split_ifs at h <;>
      first
        | exact Except.noConfusion h
        | (injection h with h; subst h; rfl)
  · intro s e a s' h
    unfold reactivateAccount at h
    split_ifs at h <;>
      first
        | exact Except.noConfusion h
        | (injection h with h; subst h; rfl)

/-- Witness for the amended C2: on concrete calls, `deactivateAccount`
leaves the log unchanged and `initiateAudit` appends its
`AuditInitiated` event. -/
theorem C2_amended_witness :
    exS1d.events = exS1.events ∧
    exS2.events = exS1.events ++
      [Event.AuditInitiated 1 exAuditId (H.ofString "compliance")] := by
  constructor
  · exact C2_amended_events.2.2.2.2.2.1 exS1 ⟨exOwner, 11, 5⟩ 1 exS1d rfl
  · exact C2_amended_events.2.2.1 exS1 ⟨exDeployer, 11, 5⟩ 1 "compliance"
      exS2 exAuditId rfl

/-! ## Success-shape lemmas: what each operation's `.ok` result implies -/

theorem createAccount_ok_eq (s : State) (e : Env) (b : Bytes) (t : String)
    (s' : State) (i : Nat) (h : createAccount s e b t = .ok (s', i)) :
    i = s.totalAccounts + 1 ∧
    s' = { s with
      totalAccounts := s.totalAccounts + 1
      accounts := setD s.accounts (s.totalAccounts + 1)
        { encryptedBalance := H.ofBytes b
          encryptedTransactions := H.ofNat 0
          isActive := true
          lastUpdated := e.timestamp
          accountOwner := e.caller
          accountType := H.ofString t }
      userAccounts := setD s.userAccounts e.caller
        (getD s.userAccounts e.caller [] ++ [s.totalAccounts + 1])
      events := s.events ++
        [Event.AccountCreated (s.totalAccounts + 1) e.caller (H.ofString t)] } := by
  unfold createAccount at h
  injection h with h
  injection h with h1 h2
  exact ⟨h2.symm, h1.symm⟩

theorem updateBalance_ok_eq (s : State) (e : Env) (a : Nat) (b : Bytes)
    (t : String) (s' : State) (h : updateBalance s e a b t = .ok s') :
    (0 < a ∧ a ≤ s.totalAccounts) ∧
    (getD s.accounts a emptyAccount).accountOwner = e.caller ∧
    (getD s.accounts a emptyAccount).isActive = true ∧
    s' = { s with
      accounts := setD s.accounts a
        { getD s.accounts a emptyAccount with
            encryptedBalance := H.ofBytes b
            lastUpdated := e.timestamp
            encryptedTransactions :=
              H.chain (getD s.accounts a emptyAccount).encryptedTransactions 1 }
      events := s.events ++ [Event.BalanceUpdated a e.timestamp (H.ofString t)] } := by
  unfold updateBalance at h
  split_ifs at h with h1 h2 h3
  injection h with h
  exact ⟨h1, not_ne_iff.mp h2, h3, h.symm⟩

theorem initiateAudit_ok_eq (s : State) (e : Env) (a : Nat) (t : String)
    (s' : State) (i : Nat) (h : initiateAudit s e a t = .ok (s', i)) :
    e.caller = s.auditor ∧
    (0 < a ∧ a ≤ s.totalAccounts) ∧
    (getD s.accounts a emptyAccount).isActive = true ∧
    i = auditIdOf e.timestamp e.prevrandao a e.caller ∧
    s' = { s with
      auditRecords := setD s.auditRecords
        (auditIdOf e.timestamp e.prevrandao a e.caller)
        { accountId := a
          auditedBalance := (getD s.accounts a emptyAccount).encryptedBalance
          discrepancyFlag := H.ofNat 0
          auditTimestamp := e.timestamp
          isCompleted := false
          auditType := H.ofString t }
      accountAudits := setD s.accountAudits a
        (getD s.accountAudits a [] ++
          [auditIdOf e.timestamp e.prevrandao a e.caller])
      events := s.events ++
        [Event.AuditInitiated a (auditIdOf e.timestamp e.prevrandao a e.caller)
          (H.ofString t)] } := by
  unfold initiateAudit at h
  split_ifs at h with h1 h2 h3
  injection h with h
  injection h with ha hb
  exact ⟨not_ne_iff.mp h1, h2, h3, hb.symm, ha.symm⟩

theorem completeAudit_ok_eq (s : State) (e : Env) (a : Nat) (f : Bytes)
    (s' : State) (h : completeAudit s e a f = .ok s') :
    e.caller = s.auditor ∧
    (getD s.auditRecords a emptyAudit).accountId ≠ 0 ∧
    (getD s.auditRecords a emptyAudit).isCompleted = false ∧
    s' = { s with
      auditRecords := setD s.auditRecords a
        { getD s.auditRecords a emptyAudit with
            discrepancyFlag := H.ofBytes f
            isCompleted := true }
      events := s.events ++
        [Event.AuditCompleted (getD s.auditRecords a emptyAudit).accountId a] } := by
  unfold completeAudit at h
  split_ifs at h with h1 h2 h3
  injection h with h
  exact ⟨not_ne_iff.mp h1, h2, Bool.not_eq_true _ ▸ h3, h.symm⟩

theorem deactivateAccount_ok_eq (s : State) (e : Env) (a : Nat) (s' : State)
    (h : deactivateAccount s e a = .ok s') :
    (0 < a ∧ a ≤ s.totalAccounts) ∧
    (getD s.accounts a emptyAccount).accountOwner = e.caller ∧
    s' = { s with
      accounts := setD s.accounts a
        { getD s.accounts a emptyAccount with isActive := false } } := by
  unfold deactivateAccount at h
  split_ifs at h with h1 h2
  injection h with h
  exact ⟨h1, not_ne_iff.mp h2, h.symm⟩

theorem reactivateAccount_ok_eq (s : State) (e : Env) (a : Nat) (s' : State)
    (h : reactivateAccount s e a = .ok s') :
    (0 < a ∧ a ≤ s.totalAccounts) ∧
    (getD s.accounts a emptyAccount).accountOwner = e.caller ∧
    s' = { s with
      accounts := setD s.accounts a
        { getD s.accounts a emptyAccount with isActive := true } } := by
  unfold reactivateAccount at h
  split_ifs at h with h1 h2
  injection h with h
  exact ⟨h1, not_ne_iff.mp h2, h.symm⟩

theorem transferAuditor_ok_eq (s : State) (e : Env) (a : Addr) (s' : State)
    (h : transferAuditor s e a = .ok s') :
    e.caller = s.auditor ∧ a ≠ 0 ∧ a ≠ s.auditor ∧
    s' = { s with
      auditor := a
      events := s.events ++ [Event.AuditorTransferred s.auditor a] } := by
  unfold transferAuditor at h
  split_ifs at h with h1 h2 h3
  injection h with h
  exact ⟨not_ne_iff.mp h1, h2, h3, h.symm⟩

/-- Case analysis for a successful `step`: it came from exactly one of the
seven external functions succeeding. -/
theorem step_ok_cases (s : State) (op : Op) (s' : State) (r : Option Nat)
    (h : step s op = .ok (s', r)) :
    (∃ e b t i, op = Op.createAccount e b t ∧
      createAccount s e b t = .ok (s', i) ∧ r = some i) ∨
    (∃ e a b t, op = Op.updateBalance e a b t ∧
      updateBalance s e a b t = .ok s' ∧ r = none) ∨
    (∃ e a t i, op = Op.initiateAudit e a t ∧
      initiateAudit s e a t = .ok (s', i) ∧ r = some i) ∨
    (∃ e a f, op = Op.completeAudit e a f ∧
      completeAudit s e a f = .ok s' ∧ r = none) ∨
    (∃ e a, op = Op.deactivateAccount e a ∧
      deactivateAccount s e a = .ok s' ∧ r = none) ∨
    (∃ e a, op = Op.reactivateAccount e a ∧
      reactivateAccount s e a = .ok s' ∧ r = none) ∨
    (∃ e a, op = Op.transferAuditor e a ∧
      transferAuditor s e a = .ok s' ∧ r = none) := by
  cases op with
  | createAccount e b t =>
    cases hu : createAccount s e b t with
    | ok v =>
      obtain ⟨s0, i⟩ := v
      simp only [step, hu, Except.map] at h
      injection h with h
      injection h with hA hB
      exact Or.inl ⟨e, b, t, i, rfl, by rw [hu, hA], hB.symm⟩
    | error v => simp [step, hu, Except.map] at h
  | updateBalance e a b t =>
    cases hu : updateBalance s e a b t with
    | ok s0 =>
      simp only [step, hu, Except.map] at h
      injection h with h
      injection h with hA hB
      exact Or.inr (Or.inl ⟨e, a, b, t, rfl, by rw [hu, hA], hB.symm⟩)
    | error v => simp [step, hu, Except.map] at h
  | initiateAudit e a t =>
    cases hu : initiateAudit s e a t with
    | ok v =>
      obtain ⟨s0, i⟩ := v
      simp only [step, hu, Except.map] at h
      injection h with h
      injection h with hA hB
      exact Or.inr (Or.inr (Or.inl ⟨e, a, t, i, rfl, by rw [hu, hA], hB.symm⟩))
    | error v => simp [step, hu, Except.map] at h
  | completeAudit e a f =>
    cases hu : completeAudit s e a f with
    | ok s0 =>
      simp only [step, hu, Except.map] at h
      injection h with h
      injection h with hA hB
      exact Or.inr (Or.inr (Or.inr (Or.inl ⟨e, a, f, rfl, by rw [hu, hA], hB.symm⟩)))
    | error v => simp [step, hu, Except.map] at h
  | deactivateAccount e a =>
    cases hu : deactivateAccount s e a with
    | ok s0 =>
      simp only [step, hu, Except.map] at h
      injection h with h
      injection h with hA hB
      exact Or.inr (Or.inr (Or.inr (Or.inr (Or.inl ⟨e, a, rfl, by rw [hu, hA], hB.symm⟩))))
    | error v => simp [step, hu, Except.map] at h
  | reactivateAccount e a =>
    cases hu : reactivateAccount s e a with
    | ok s0 =>
      simp only [step, hu, Except.map] at h
      injection h with h
      injection h with hA hB
      exact Or.inr (Or.inr (Or.inr (Or.inr (Or.inr (Or.inl
        ⟨e, a, rfl, by rw [hu, hA], hB.symm⟩)))))
    | error v => simp [step, hu, Except.map] at h
  | transferAuditor e a =>
    cases hu : transferAuditor s e a with
    | ok s0 =>
      simp only [step, hu, Except.map] at h
      injection h with h
      injection h with hA hB
      exact Or.inr (Or.inr (Or.inr (Or.inr (Or.inr (Or.inr
        ⟨e, a, rfl, by rw [hu, hA], hB.symm⟩)))))
    | error v => simp [step, hu, Except.map] at h

/-! ## C4: the audited balance snapshot -/

/-- Counterexample to C4: account 1 is audited (snapshot = hash of the
initial balance bytes `[1]`), the owner then updates the balance to bytes
`[2]`, and a second `initiateAudit` in the same block derives the same
audit id and overwrites the stored record — after it, the record's
`auditedBalance` is the hash of `[2]`, no longer the commitment the
account had when the first initiation succeeded. -/
theorem C4_counterexample :
    (getD exS2.auditRecords exAuditId emptyAudit).auditedBalance =
      H.ofBytes [1] ∧
    updateBalance exS2 ⟨exOwner, 11, 5⟩ 1 [2] "deposit" = Except.ok exS2u ∧
    (getD exS2u.auditRecords exAuditId emptyAudit).auditedBalance =
      H.ofBytes [1] ∧
    initiateAudit exS2u ⟨exDeployer, 11, 5⟩ 1 "financial" =
      Except.ok (exS2ui, exAuditId) ∧
    (getD exS2ui.auditRecords exAuditId emptyAudit).auditedBalance =
      H.ofBytes [2] :=
  ⟨rfl, rfl, rfl, rfl, rfl⟩

/-- C4 amended: the `auditedBalance` snapshot of every stored audit
record is preserved by every successful operation — `updateBalance` on
the account, `completeAudit` on the record, and all others — *except* a
later `initiateAudit` whose derived audit id collides with the record's
id, which overwrites the snapshot (as `C4_counterexample` shows). -/
theorem C4_amended_snapshot_frozen (s : State) (op : Op) (s' : State)
    (r : Option Nat) (aid : Nat)
    (h : step s op = .ok (s', r))
    (hnc : ∀ e a t, op = Op.initiateAudit e a t →
      auditIdOf e.timestamp e.prevrandao a e.caller ≠ aid) :
    (getD s'.auditRecords aid emptyAudit).auditedBalance =
      (getD s.auditRecords aid emptyAudit).auditedBalance := by
  rcases step_ok_cases s op s' r h with
    ⟨e, b, t, i, hop, hu, hr⟩ | ⟨e, a, b, t, hop, hu, hr⟩ |
    ⟨e, a, t, i, hop, hu, hr⟩ | ⟨e, a, f, hop, hu, hr⟩ |
    ⟨e, a, hop, hu, hr⟩ | ⟨e, a, hop, hu, hr⟩ | ⟨e, a, hop, hu, hr⟩
  · obtain ⟨hi, hs⟩ := createAccount_ok_eq s e b t s' i hu
    rw [hs]
  · obtain ⟨hv, ho, ha, hs⟩ := updateBalance_ok_eq s e a b t s' hu
    rw [hs]
  · obtain ⟨hc, hv, ha, hi, hs⟩ := initiateAudit_ok_eq s e a t s' i hu
    rw [hs]
    show (getD (setD s.auditRecords
      (auditIdOf e.timestamp e.prevrandao a e.caller) _) aid emptyAudit).auditedBalance = _
    rw [getD_setD_ne _ _ _ _ _ (Ne.symm (hnc e a t hop))]
  · obtain ⟨hc, hex, hncomp, hs⟩ := completeAudit_ok_eq s e a f s' hu
    rw [hs]
    show (getD (setD s.auditRecords a _) aid emptyAudit).auditedBalance = _
    by_cases haid : aid = a
    · subst haid
      rw [getD_setD_self]
    · rw [getD_setD_ne _ _ _ _ _ haid]
  · obtain ⟨hv, ho, hs⟩ := deactivateAccount_ok_eq s e a s' hu
    rw [hs]
  · obtain ⟨hv, ho, hs⟩ := reactivateAccount_ok_eq s e a s' hu
    rw [hs]
  · obtain ⟨hc, hz, hne, hs⟩ := transferAuditor_ok_eq s e a s' hu
    rw [hs]

/-- Witness for the amended C4: a concrete `updateBalance` on the audited
account leaves the stored snapshot untouched. -/
theorem C4_amended_witness :
    (getD exS2u.auditRecords exAuditId emptyAudit).auditedBalance =
      (getD exS2.auditRecords exAuditId emptyAudit).auditedBalance :=
  C4_amended_snapshot_frozen exS2
    (Op.updateBalance ⟨exOwner, 11, 5⟩ 1 [2] "deposit") exS2u none exAuditId
    rfl (fun e a t hop => Op.noConfusion hop)

/-! ## C5: sequential account ids -/

theorem runCreates_ids (calls : List (Env × Bytes × String)) : ∀ s : State,
    (runCreates s calls).2 = List.range' (s.totalAccounts + 1) calls.length ∧
    (runCreates s calls).1.totalAccounts = s.totalAccounts + calls.length := by
  induction calls with
  | nil => intro s; simp [runCreates]
  | cons c rest ih =>
    intro s
    obtain ⟨e, b, t⟩ := c
    obtain ⟨ih1, ih2⟩ := ih { s with
      totalAccounts := s.totalAccounts + 1
      accounts := setD s.accounts (s.totalAccounts + 1)
        { encryptedBalance := H.ofBytes b
          encryptedTransactions := H.ofNat 0
          isActive := true
          lastUpdated := e.timestamp
          accountOwner := e.caller
          accountType := H.ofString t }
      userAccounts := setD s.userAccounts e.caller
        (getD s.userAccounts e.caller [] ++ [s.totalAccounts + 1])
      events := s.events ++
        [Event.AccountCreated (s.totalAccounts + 1) e.caller (H.ofString t)] }
    constructor
    · show (s.totalAccounts + 1) :: _ = _
      rw [List.length_cons, List.range'_succ, ih1]
    · show (runCreates _ rest).1.totalAccounts = _
      rw [ih2]
      simp [Nat.add_assoc, Nat.add_comm 1]

/-- C5: starting from a freshly deployed ledger, any sequence of
`createAccount` calls is assigned exactly the ids `1, 2, ..., N` in call
order (no gaps, no reuse), and `getTotalAccounts` afterwards returns
`N`, the number of creations. -/
theorem C5_sequential_ids (d : Addr) (calls : List (Env × Bytes × String)) :
    (runCreates (deploy d) calls).2 = List.range' 1 calls.length ∧
    getTotalAccounts (runCreates (deploy d) calls).1 = calls.length := by
  obtain ⟨h1, h2⟩ := runCreates_ids calls (deploy d)
  refine ⟨?_, ?_⟩
  · simpa [deploy] using h1
  · simpa [deploy, getTotalAccounts] using h2

/-! ## C6: completing an audit twice -/

/-- C6: if `completeAudit` succeeds on `auditId`, then the stored record
now has `isCompleted = true`, and a second `completeAudit` by the same
caller on the same `auditId` fails `AuditAlreadyCompleted` with the
pre-second-call state carried unchanged, so the ledger after the second
call equals the ledger after the first. -/
theorem C6_complete_twice (s : State) (e : Env) (auditId : Nat)
    (f1 f2 : Bytes) (s1 : State)
    (h1 : completeAudit s e auditId f1 = .ok s1) :
    (getD s1.auditRecords auditId emptyAudit).isCompleted = true ∧
    completeAudit s1 e auditId f2 =
      .error (Error.AuditAlreadyCompleted, s1) ∧
    run s1 [Op.completeAudit e auditId f2] = s1 := by
  obtain ⟨hcaller, hex, hncomp, hs1⟩ := completeAudit_ok_eq s e auditId f1 s1 h1
  subst hs1
  have hrec := getD_setD_self s.auditRecords auditId
    { getD s.auditRecords auditId emptyAudit with
        discrepancyFlag := H.ofBytes f1
        isCompleted := true } emptyAudit
  have hcompleted :
      (getD (setD s.auditRecords auditId
        { getD s.auditRecords auditId emptyAudit with
            discrepancyFlag := H.ofBytes f1
            isCompleted := true }) auditId emptyAudit).isCompleted = true := by
    rw [hrec]
  have h2 : completeAudit
      { s with
        auditRecords := setD s.auditRecords auditId
          { getD s.auditRecords auditId emptyAudit with
              discrepancyFlag := H.ofBytes f1
              isCompleted := true }
        events := s.events ++
          [Event.AuditCompleted (getD s.auditRecords auditId emptyAudit).accountId
            auditId] } e auditId f2 =
      .error (Error.AuditAlreadyCompleted,
        { s with
          auditRecords := setD s.auditRecords auditId
            { getD s.auditRecords auditId emptyAudit with
                discrepancyFlag := H.ofBytes f1
                isCompleted := true }
          events := s.events ++
            [Event.AuditCompleted
              (getD s.auditRecords auditId emptyAudit).accountId auditId] }) := by
    unfold completeAudit
    rw [if_neg (not_ne_iff.mpr hcaller), if_neg (by rw [hrec]; exact hex),
      if_pos hcompleted]
  refine ⟨hcompleted, h2, ?_⟩
  simp [run, step, h2, Except.map]

/-- Witness for C6: completing the concrete audit of `exS2` succeeds,
and completing it again fails `AuditAlreadyCompleted` leaving the state
as after the first completion. -/
theorem C6_witness :
    (getD exS3.auditRecords exAuditId emptyAudit).isCompleted = true ∧
    completeAudit exS3 ⟨exDeployer, 11, 5⟩ exAuditId [8] =
      Except.error (Error.AuditAlreadyCompleted, exS3) ∧
    run exS3 [Op.completeAudit ⟨exDeployer, 11, 5⟩ exAuditId [8]] = exS3 :=
  C6_complete_twice exS2 ⟨exDeployer, 11, 5⟩ exAuditId [7] [8] exS3 rfl

/-! ## C8: deactivate / reactivate lifecycle -/

/-- C8: (1) deactivating then reactivating a valid account restores
`isActive = true` and leaves the owner address and account-type hash
unchanged; (2) deactivating (resp. reactivating) is permitted on an
account that is already inactive (resp. active) and is idempotent:
repeating the call succeeds and returns the identical state; and
(3) `updateBalance` by the owner of a valid but inactive account fails
`InactiveAccount` with the state unchanged. -/
theorem C8_lifecycle :
    (∀ s e a s1 s2, deactivateAccount s e a = .ok s1 →
      reactivateAccount s1 e a = .ok s2 →
      (getD s2.accounts a emptyAccount).isActive = true ∧
      (getD s2.accounts a emptyAccount).accountOwner =
        (getD s.accounts a emptyAccount).accountOwner ∧
      (getD s2.accounts a emptyAccount).accountType =
        (getD s.accounts a emptyAccount).accountType) ∧
    (∀ s e a s1, deactivateAccount s e a = .ok s1 →
      deactivateAccount s1 e a = .ok s1) ∧
    (∀ s e a s1, reactivateAccount s e a = .ok s1 →
      reactivateAccount s1 e a = .ok s1) ∧
    (∀ s e a b t, 0 < a → a ≤ s.totalAccounts →
      (getD s.accounts a emptyAccount).accountOwner = e.caller →
      (getD s.accounts a emptyAccount).isActive = false →
      updateBalance s e a b t = .error (Error.InactiveAccount, s)) := by
  refine ⟨?_, ?_, ?_, ?_⟩
  · intro s e a s1 s2 hd hr
    obtain ⟨hv, ho, hs1⟩ := deactivateAccount_ok_eq s e a s1 hd
    obtain ⟨hv2, ho2, hs2⟩ := reactivateAccount_ok_eq s1 e a s2 hr
    subst hs1
    subst hs2
    have hget := getD_setD_self s.accounts a
      { getD s.accounts a emptyAccount with isActive := false } emptyAccount
    show (getD (setD _ a _) a emptyAccount).isActive = true ∧ _ ∧ _
    rw [getD_setD_self]
    refine ⟨rfl, ?_, ?_⟩
    · show ({ getD _ a emptyAccount with isActive := true } :
        PrivateAccount).accountOwner = _
      rw [hget]
    · show ({ getD _ a emptyAccount with isActive := true } :
        PrivateAccount).accountType = _
      rw [hget]
  · intro s e a s1 hd
    obtain ⟨hv, ho, hs1⟩ := deactivateAccount_ok_eq s e a s1 hd
    subst hs1
    unfold deactivateAccount
    rw [if_neg (not_not_intro hv), if_neg]
    · show Except.ok _ = Except.ok _
      rw [getD_setD_self, setD_setD]
    · show ¬(getD (setD _ a _) a emptyAccount).accountOwner ≠ e.caller
      rw [getD_setD_self]
      exact not_ne_iff.mpr ho
  · intro s e a s1 hr
    obtain ⟨hv, ho, hs1⟩ := reactivateAccount_ok_eq s e a s1 hr
    subst hs1
    unfold reactivateAccount
    rw [if_neg (not_not_intro hv), if_neg]
    · show Except.ok _ = Except.ok _
      rw [getD_setD_self, setD_setD]
    · show ¬(getD (setD _ a _) a emptyAccount).accountOwner ≠ e.caller
      rw [getD_setD_self]
      exact not_ne_iff.mpr ho
  · intro s e a b t hpos hle ho hinact
    unfold updateBalance
    rw [if_neg (not_not_intro ⟨hpos, hle⟩), if_neg (not_ne_iff.mpr ho), if_pos]
    rw [hinact]
    exact Bool.false_ne_true

/-- Witness for C8: concrete deactivate/reactivate round-trip on account
1, idempotent repeats, and the `InactiveAccount` failure of
`updateBalance` on the deactivated account. -/
theorem C8_witness :
    ((getD (run exS1d [Op.reactivateAccount ⟨exOwner, 11, 5⟩ 1]).accounts 1
        emptyAccount).isActive = true ∧
      (getD (run exS1d [Op.reactivateAccount ⟨exOwner, 11, 5⟩ 1]).accounts 1
        emptyAccount).accountOwner =
        (getD exS1.accounts 1 emptyAccount).accountOwner ∧
      (getD (run exS1d [Op.reactivateAccount ⟨exOwner, 11, 5⟩ 1]).accounts 1
        emptyAccount).accountType =
        (getD exS1.accounts 1 emptyAccount).accountType) ∧
    deactivateAccount exS1d ⟨exOwner, 11, 5⟩ 1 = Except.ok exS1d ∧
    updateBalance exS1d ⟨exOwner, 12, 5⟩ 1 [3] "deposit" =
      Except.error (Error.InactiveAccount, exS1d) := by
  refine ⟨?_, ?_, ?_⟩
  · exact C8_lifecycle.1 exS1 ⟨exOwner, 11, 5⟩ 1 exS1d
      (run exS1d [Op.reactivateAccount ⟨exOwner, 11, 5⟩ 1]) rfl rfl
  · exact C8_lifecycle.2.1 exS1 ⟨exOwner, 11, 5⟩ 1 exS1d rfl
  · exact C8_lifecycle.2.2.2 exS1d ⟨exOwner, 12, 5⟩ 1 [3] "deposit"
      (by decide) (by decide) (by decide) (by decide)

/-! ## C9: completing an audit does not require an active account -/

/-- C9: `completeAudit` performs no `activeAccount` check: for any state
whose audit record under `auditId` exists (non-zero `accountId`) and is
not yet completed — in particular even when the audited account is
currently deactivated — a call by the current auditor succeeds. -/
theorem C9_complete_ignores_active (s : State) (e : Env) (auditId : Nat)
    (f : Bytes)
    (hcaller : e.caller = s.auditor)
    (hex : (getD s.auditRecords auditId emptyAudit).accountId ≠ 0)
    (hncomp : (getD s.auditRecords auditId emptyAudit).isCompleted = false)
    (hinactive : (getD s.accounts
      (getD s.auditRecords auditId emptyAudit).accountId
      emptyAccount).isActive = false) :
    ∃ s', completeAudit s e auditId f = .ok s' := by
  refine ⟨{ s with
      auditRecords := setD s.auditRecords auditId
        { getD s.auditRecords auditId emptyAudit with
            discrepancyFlag := H.ofBytes f
            isCompleted := true }
      events := s.events ++
        [Event.AuditCompleted
          (getD s.auditRecords auditId emptyAudit).accountId auditId] }, ?_⟩
  unfold completeAudit
  rw [if_neg (not_ne_iff.mpr hcaller), if_neg hex,
    if_neg (by rw [hncomp]; exact Bool.false_ne_true)]

/-- Witness for C9: the audit of account 1 is completed by the auditor
after the owner deactivated the account. -/
theorem C9_witness :
    (getD exS2d.accounts 1 emptyAccount).isActive = false ∧
    ∃ s', completeAudit exS2d ⟨exDeployer, 13, 7⟩ exAuditId [9] = .ok s' :=
  ⟨rfl, C9_complete_ignores_active exS2d ⟨exDeployer, 13, 7⟩ exAuditId [9]
    rfl (by decide) rfl rfl⟩

/-! ## C10: the `accountId != 0` existence test -/

theorem step_ok_total_mono (s : State) (op : Op) (s' : State) (r : Option Nat)
    (h : step s op = .ok (s', r)) : s.totalAccounts ≤ s'.totalAccounts := by
  rcases step_ok_cases s op s' r h with
    ⟨e, b, t, i, hop, hu, hr⟩ | ⟨e, a0, b, t, hop, hu, hr⟩ |
    ⟨e, a0, t, i, hop, hu, hr⟩ | ⟨e, a0, f, hop, hu, hr⟩ |
    ⟨e, a0, hop, hu, hr⟩ | ⟨e, a0, hop, hu, hr⟩ | ⟨e, a0, hop, hu, hr⟩
  · obtain ⟨hi, hs⟩ := createAccount_ok_eq s e b t s' i hu
    subst hs
    exact Nat.le_succ _
  · obtain ⟨hv, ho, ha, hs⟩ := updateBalance_ok_eq s e a0 b t s' hu
    subst hs
    exact Nat.le.refl
  · obtain ⟨hc, hv, ha, hi, hs⟩ := initiateAudit_ok_eq s e a0 t s' i hu
    subst hs
    exact Nat.le.refl
  · obtain ⟨hc, hex, hncomp, hs⟩ := completeAudit_ok_eq s e a0 f s' hu
    subst hs
    exact Nat.le.refl
  · obtain ⟨hv, ho, hs⟩ := deactivateAccount_ok_eq s e a0 s' hu
    subst hs
    exact Nat.le.refl
  · obtain ⟨hv, ho, hs⟩ := reactivateAccount_ok_eq s e a0 s' hu
    subst hs
    exact Nat.le.refl
  · obtain ⟨hc, hz, hne, hs⟩ := transferAuditor_ok_eq s e a0 s' hu
    subst hs
    exact Nat.le.refl

theorem step_ok_support (s : State) (op : Op) (s' : State) (r : Option Nat)
    (h : step s op = .ok (s', r)) (a : Nat) :
    ((getD s'.auditRecords a emptyAudit).accountId ≠ 0 ↔
      ((getD s.auditRecords a emptyAudit).accountId ≠ 0 ∨
        ((∃ env acc t, op = Op.initiateAudit env acc t) ∧ r = some a))) := by
  rcases step_ok_cases s op s' r h with
    ⟨e, b, t, i, hop, hu, hr⟩ | ⟨e, a0, b, t, hop, hu, hr⟩ |
    ⟨e, a0, t, i, hop, hu, hr⟩ | ⟨e, a0, f, hop, hu, hr⟩ |
    ⟨e, a0, hop, hu, hr⟩ | ⟨e, a0, hop, hu, hr⟩ | ⟨e, a0, hop, hu, hr⟩
  · obtain ⟨hi, hs⟩ := createAccount_ok_eq s e b t s' i hu
    subst hop
    subst hs
    simp
  · obtain ⟨hv, ho, ha2, hs⟩ := updateBalance_ok_eq s e a0 b t s' hu
    subst hop
    subst hs
    simp
  · obtain ⟨hc, hv, hact, hi, hs⟩ := initiateAudit_ok_eq s e a0 t s' i hu
    subst hop
    subst hr
    subst hs
    show (getD (setD s.auditRecords
        (auditIdOf e.timestamp e.prevrandao a0 e.caller) _) a emptyAudit).accountId
      ≠ 0 ↔ _
    by_cases hK : a = auditIdOf e.timestamp e.prevrandao a0 e.caller
    · rw [hK, getD_setD_self]
      constructor
      · intro _
        exact Or.inr ⟨⟨e, a0, t, rfl⟩, by rw [hi]⟩
      · intro _
        show a0 ≠ 0
        exact Nat.pos_iff_ne_zero.mp hv.1
    · rw [getD_setD_ne _ _ _ _ _ hK]
      constructor
      · exact Or.inl
      · rintro (hl | ⟨_, hr2⟩)
        · exact hl
        · exact absurd ((Option.some.inj hr2).symm.trans hi) hK
  · obtain ⟨hc, hex, hncomp, hs⟩ := completeAudit_ok_eq s e a0 f s' hu
    subst hop
    subst hr
    subst hs
    show (getD (setD s.auditRecords a0 _) a emptyAudit).accountId ≠ 0 ↔ _
    by_cases hK : a = a0
    · subst hK
      rw [getD_setD_self]
      constructor
      · intro _
        exact Or.inl hex
      · intro _
        exact hex
    · rw [getD_setD_ne _ _ _ _ _ hK]
      simp
  · obtain ⟨hv, ho, hs⟩ := deactivateAccount_ok_eq s e a0 s' hu
    subst hop
    subst hs
    simp
  · obtain ⟨hv, ho, hs⟩ := reactivateAccount_ok_eq s e a0 s' hu
    subst hop
    subst hs
    simp
  · obtain ⟨hc, hz, hne, hs⟩ := transferAuditor_ok_eq s e a0 s' hu
    subst hop
    subst hs
    simp

theorem step_ok_inv (s : State) (op : Op) (s' : State) (r : Option Nat)
    (h : step s op = .ok (s', r)) (hinv : AuditInv s) : AuditInv s' := by
  rcases step_ok_cases s op s' r h with
    ⟨e, b, t, i, hop, hu, hr⟩ | ⟨e, a0, b, t, hop, hu, hr⟩ |
    ⟨e, a0, t, i, hop, hu, hr⟩ | ⟨e, a0, f, hop, hu, hr⟩ |
    ⟨e, a0, hop, hu, hr⟩ | ⟨e, a0, hop, hu, hr⟩ | ⟨e, a0, hop, hu, hr⟩
  · obtain ⟨hi, hs⟩ := createAccount_ok_eq s e b t s' i hu
    subst hs
    intro a ha
    obtain ⟨h1, h2⟩ := hinv a ha
    exact ⟨h1, Nat.le_succ_of_le h2⟩
  · obtain ⟨hv, ho, ha2, hs⟩ := updateBalance_ok_eq s e a0 b t s' hu
    subst hs
    intro a ha
    exact hinv a ha
  · obtain ⟨hc, hv, hact, hi, hs⟩ := initiateAudit_ok_eq s e a0 t s' i hu
    subst hs
    intro a ha
    by_cases hK : a = auditIdOf e.timestamp e.prevrandao a0 e.caller
    · subst hK
      show 1 ≤ (getD (setD s.auditRecords _ _) _ emptyAudit).accountId ∧
        (getD (setD s.auditRecords _ _) _ emptyAudit).accountId ≤ s.totalAccounts
      rw [getD_setD_self]
      exact ⟨hv.1, hv.2⟩
    · show 1 ≤ (getD (setD s.auditRecords
          (auditIdOf e.timestamp e.prevrandao a0 e.caller) _) a emptyAudit).accountId ∧
        (getD (setD s.auditRecords
          (auditIdOf e.timestamp e.prevrandao a0 e.caller) _) a emptyAudit).accountId ≤
          s.totalAccounts
      rw [getD_setD_ne _ _ _ _ _ hK]
      apply hinv a
      have ha' : (getD (setD s.auditRecords
          (auditIdOf e.timestamp e.prevrandao a0 e.caller)
          { accountId := a0
            auditedBalance := (getD s.accounts a0 emptyAccount).encryptedBalance
            discrepancyFlag := H.ofNat 0
            auditTimestamp := e.timestamp
            isCompleted := false
            auditType := H.ofString t }) a emptyAudit).accountId ≠ 0 := ha
      rwa [getD_setD_ne _ _ _ _ _ hK] at ha'
  · obtain ⟨hc, hex, hncomp, hs⟩ := completeAudit_ok_eq s e a0 f s' hu
    subst hs
    intro a ha
    by_cases hK : a = a0
    · subst hK
      show 1 ≤ (getD (setD s.auditRecords a _) a emptyAudit).accountId ∧
        (getD (setD s.auditRecords a _) a emptyAudit).accountId ≤ s.totalAccounts
      rw [getD_setD_self]
      exact hinv a hex
    · show 1 ≤ (getD (setD s.auditRecords a0 _) a emptyAudit).accountId ∧
        (getD (setD s.auditRecords a0 _) a emptyAudit).accountId ≤ s.totalAccounts
      rw [getD_setD_ne _ _ _ _ _ hK]
      apply hinv a
      have ha' : (getD (setD s.auditRecords a0
          { getD s.auditRecords a0 emptyAudit with
              discrepancyFlag := H.ofBytes f
              isCompleted := true }) a emptyAudit).accountId ≠ 0 := ha
      rwa [getD_setD_ne _ _ _ _ _ hK] at ha'
  · obtain ⟨hv, ho, hs⟩ := deactivateAccount_ok_eq s e a0 s' hu
    subst hs
    intro a ha
    exact hinv a ha
  · obtain ⟨hv, ho, hs⟩ := reactivateAccount_ok_eq s e a0 s' hu
    subst hs
    intro a ha
    exact hinv a ha
  · obtain ⟨hc, hz, hne, hs⟩ := transferAuditor_ok_eq s e a0 s' hu
    subst hs
    intro a ha
    exact hinv a ha

theorem mem_initiate_prefix (op : Op) (r : Option Nat) (a : Nat) :
    a ∈ initiatePrefix op r ↔
      ((∃ env acc t, op = Op.initiateAudit env acc t) ∧ r = some a) := by
  cases op <;> cases r <;> simp [initiatePrefix, eq_comm]

theorem run_cons_ok (s : State) (op : Op) (t : List Op) (s' : State)
    (r : Option Nat) (hstep : step s op = .ok (s', r)) :
    run s (op :: t) = run s' t := by
  show (match step s op with
    | .ok (s', _) => run s' t
    | .error _ => run s t) = run s' t
  rw [hstep]

theorem run_cons_error (s : State) (op : Op) (t : List Op) (v : Error × State)
    (hstep : step s op = .error v) : run s (op :: t) = run s t := by
  show (match step s op with
    | .ok (s', _) => run s' t
    | .error _ => run s t) = run s t
  rw [hstep]

theorem auditIdsAssigned_cons_ok (s : State) (op : Op) (t : List Op)
    (s' : State) (r : Option Nat) (hstep : step s op = .ok (s', r)) :
    auditIdsAssigned s (op :: t) =
      initiatePrefix op r ++ auditIdsAssigned s' t := by
  show (match step s op with
    | .ok (s', r) => initiatePrefix op r ++ auditIdsAssigned s' t
    | .error _ => auditIdsAssigned s t) = _
  rw [hstep]

theorem auditIdsAssigned_cons_error (s : State) (op : Op) (t : List Op)
    (v : Error × State) (hstep : step s op = .error v) :
    auditIdsAssigned s (op :: t) = auditIdsAssigned s t := by
  show (match step s op with
    | .ok (s', r) => initiatePrefix op r ++ auditIdsAssigned s' t
    | .error _ => auditIdsAssigned s t) = _
  rw [hstep]

theorem run_support (ops : List Op) : ∀ (s : State) (a : Nat),
    ((getD (run s ops).auditRecords a emptyAudit).accountId ≠ 0 ↔
      ((getD s.auditRecords a emptyAudit).accountId ≠ 0 ∨
        a ∈ auditIdsAssigned s ops)) := by
  induction ops with
  | nil =>
    intro s a
    show (getD s.auditRecords a emptyAudit).accountId ≠ 0 ↔
      ((getD s.auditRecords a emptyAudit).accountId ≠ 0 ∨ a ∈ ([] : List Nat))
    simp
  | cons op t ih =>
    intro s a
    cases hstep : step s op with
    | ok v =>
      obtain ⟨s', r⟩ := v
      rw [run_cons_ok s op t s' r hstep, auditIdsAssigned_cons_ok s op t s' r hstep,
        ih s' a, step_ok_support s op s' r hstep a, List.mem_append,
        mem_initiate_prefix op r a, or_assoc]
    | error v =>
      rw [run_cons_error s op t v hstep, auditIdsAssigned_cons_error s op t v hstep]
      exact ih s a

theorem run_inv (ops : List Op) : ∀ s : State,
    AuditInv s → AuditInv (run s ops) := by
  induction ops with
  | nil => intro s h; exact h
  | cons op t ih =>
    intro s h
    cases hstep : step s op with
    | ok v =>
      obtain ⟨s', r⟩ := v
      rw [run_cons_ok s op t s' r hstep]
      exact ih s' (step_ok_inv s op s' r hstep h)
    | error v =>
      rw [run_cons_error s op t v hstep]
      exact ih s h

theorem AuditInv_deploy (d : Addr) : AuditInv (deploy d) := by
  intro a ha
  exact absurd rfl ha

/-- C10: over any call sequence from a fresh deployment, a stored audit
record has `accountId ≠ 0` exactly when its id was assigned by some
successful `initiateAudit` of the sequence — so the
`auditRecords[auditId].accountId != 0` existence test used by
`completeAudit`, `getAuditRecord` and `getAuditFlag` characterises the
created audit ids — and every stored record's `accountId` lies in
`[1, totalAccounts]`. -/
theorem C10_audit_existence (d : Addr) (ops : List Op) (a : Nat) :
    ((getD (run (deploy d) ops).auditRecords a emptyAudit).accountId ≠ 0 ↔
      a ∈ auditIdsAssigned (deploy d) ops) ∧
    ((getD (run (deploy d) ops).auditRecords a emptyAudit).accountId ≠ 0 →
      1 ≤ (getD (run (deploy d) ops).auditRecords a emptyAudit).accountId ∧
      (getD (run (deploy d) ops).auditRecords a emptyAudit).accountId ≤
        (run (deploy d) ops).totalAccounts) := by
  constructor
  · rw [run_support ops (deploy d) a]
    simp [deploy, getD, emptyAudit]
  · intro ha
    exact run_inv ops (deploy d) (AuditInv_deploy d) a ha

/-- Witness for C10: after a concrete create-then-initiate sequence the
stored record's `accountId` is within `[1, totalAccounts]`. -/
theorem C10_witness :
    1 ≤ (getD (run (deploy exDeployer)
        [Op.createAccount ⟨exOwner, 10, 5⟩ [1] "company",
          Op.initiateAudit ⟨exDeployer, 11, 5⟩ 1 "compliance"]).auditRecords
        exAuditId emptyAudit).accountId ∧
    (getD (run (deploy exDeployer)
        [Op.createAccount ⟨exOwner, 10, 5⟩ [1] "company",
          Op.initiateAudit ⟨exDeployer, 11, 5⟩ 1 "compliance"]).auditRecords
        exAuditId emptyAudit).accountId ≤
      (run (deploy exDeployer)
        [Op.createAccount ⟨exOwner, 10, 5⟩ [1] "company",
          Op.initiateAudit ⟨exDeployer, 11, 5⟩ 1 "compliance"]).totalAccounts :=
  (C10_audit_existence exDeployer
    [Op.createAccount ⟨exOwner, 10, 5⟩ [1] "company",
      Op.initiateAudit ⟨exDeployer, 11, 5⟩ 1 "compliance"] exAuditId).2
    (by decide)
